import Mathlib

/-!
# Verification of the MNIST IDX reader (`src/data/mnist_dataset_builder.py`)

A shallow embedding of the binary IDX file reader: header validation,
big-endian 32-bit integer decoding, and the fixed-record decode/normalize
pipeline.  Files are modelled as lists of byte values (`List Nat`, each
element < 256); a file handle with a read cursor is a `ByteStream`.
Python exceptions are modelled by an explicit error type and `Except`.
-/

set_option maxHeartbeats 1000000
set_option maxRecDepth 100000

namespace Mnist

/-- A byte-oriented readable resource: the underlying bytes plus the read
cursor.  Models a Python binary file object opened with mode rb. -/
structure ByteStream where
  data : List Nat
  pos : Nat
deriving DecidableEq, Repr

/-- The error taxonomy of the reader.  The Python code raises built-in
exceptions; each constructor records one raise site:
* `truncatedRead` — `np.frombuffer(bytestream.read(4), ...)` when fewer than
  4 bytes remain (numpy raises on a short or empty buffer), and the
  record reader hitting a partial trailing record;
* `invalidMagic m` — the `ValueError` for a wrong magic number `m`;
* `invalidDimensions r c` — the `ValueError` for declared dimensions
  `r`×`c` other than 28×28;
* `nameError` — the Python `NameError` raised by `autoencoder_dataset`
  when it evaluates the unbound variable `labels_file`. -/
inductive MnistError where
  | truncatedRead : MnistError
  | invalidMagic : Nat → MnistError
  | invalidDimensions : Nat → Nat → MnistError
  | nameError : MnistError
deriving DecidableEq, Repr

/-- Big-endian interpretation of a byte list, most significant byte first.
Models `np.frombuffer(-, dtype=np.uint32 big-endian)[0]` applied to 4 bytes. -/
def be32 (bs : List Nat) : Nat :=
  bs.foldl (fun acc b => acc * 256 + b) 0

/-- `read32`: read 4 bytes from the stream as an unsigned 32-bit big-endian
integer.  `bytestream.read(4)` returns the at-most-4 bytes remaining and
advances the cursor; `np.frombuffer` then fails unless it got exactly
4 bytes (a 1–3 byte buffer raises `ValueError`, an empty one makes the
`[0]` indexing raise `IndexError`) — both are truncation failures. -/
def read32 (s : ByteStream) : Except MnistError (Nat × ByteStream) :=
  if s.pos + 4 ≤ s.data.length then
    .ok (be32 ((s.data.drop s.pos).take 4), ⟨s.data, s.pos + 4⟩)
  else
    .error .truncatedRead

/-- `check_image_file_header`: open the file (cursor at 0), read magic,
`num_images` (unused), rows and cols, then check magic = 2051 and
rows = cols = 28.  Returns no value on success (Python returns `None`). -/
def check_image_file_header (f : List Nat) : Except MnistError Unit :=
  match read32 ⟨f, 0⟩ with
  | .error e => .error e
  | .ok (magic, s1) =>
    match read32 s1 with
    | .error e => .error e
    | .ok (_, s2) =>
      match read32 s2 with
      | .error e => .error e
      | .ok (rows, s3) =>
        match read32 s3 with
        | .error e => .error e
        | .ok (cols, _) =>
          if magic ≠ 2051 then .error (.invalidMagic magic)
          else if rows ≠ 28 ∨ cols ≠ 28 then .error (.invalidDimensions rows cols)
          else .ok ()

/-- `check_labels_file_header`: open the file (cursor at 0), read magic and
`num_items` (unused), then check magic = 2049.  Returns no value on
success (Python returns `None`). -/
def check_labels_file_header (f : List Nat) : Except MnistError Unit :=
  match read32 ⟨f, 0⟩ with
  | .error e => .error e
  | .ok (magic, s1) =>
    match read32 s1 with
    | .error e => .error e
    | .ok (_, _) =>
      if magic ≠ 2049 then .error (.invalidMagic magic) else .ok ()

/-- Encode a value below 2^32 as its 4 big-endian bytes (used to build
concrete test files). -/
def u32be (n : Nat) : List Nat :=
  [n / 2 ^ 24 % 256, n / 2 ^ 16 % 256, n / 2 ^ 8 % 256, n % 256]

/-- A 16-byte IDX image header with the given field values. -/
def imageHeader (magic count rows cols : Nat) : List Nat :=
  u32be magic ++ u32be count ++ u32be rows ++ u32be cols

/-- An 8-byte IDX label header with the given field values. -/
def labelHeader (magic count : Nat) : List Nat :=
  u32be magic ++ u32be count

/-! ## The float32 normalization of `decode_image`

`decode_image` does `tf.cast(image, tf.float32)` (exact: every integer in
[0,255] is representable) followed by `image / 255.0`, an IEEE-754 binary32
division, which returns the representable value nearest to the exact
quotient.  We model binary32 values as rationals and round-to-nearest as an
executable function on rationals.  The model covers exact quotients in
(0, 1] — the range of every normalized pixel — where results are normal
(no overflow, no subnormals): a 24-bit significand scaled by a power of
two.  Ties never arise for quotients `b / 255` (their denominators are odd),
so round-half-up agrees with the IEEE ties-to-even rule on all inputs the
code produces. -/

/-- Smallest `k ≤ fuel` with `1 ≤ q * 2 ^ k` (so `2 ^ (-k) ≤ q < 2 ^ (-k+1)`
for `0 < q ≤ 1`): the magnitude of the binary exponent of `q`. -/
def f32scaleAux : Nat → ℚ → Nat
  | 0, _ => 0
  | fuel + 1, q => if 1 ≤ q then 0 else f32scaleAux fuel (2 * q) + 1

/-- Round a rational in (0, 1] to the nearest IEEE-754 binary32 value
(24-bit significand); `0` maps to `0`. -/
def f32round (q : ℚ) : ℚ :=
  if q ≤ 0 then 0
  else
    let k := f32scaleAux 200 q
    ((round (q * 2 ^ (23 + k)) : ℤ) : ℚ) / 2 ^ (23 + k)

/-- One pixel of `decode_image`: cast the byte to float32 (exact) and divide
by the float32 literal `255.0` — the correctly rounded quotient `b / 255`. -/
def decode_pixel (b : Nat) : ℚ :=
  f32round ((b : ℚ) / 255)

/-- `decode_image`: interpret a 784-byte record as unsigned bytes and
normalize each from [0, 255] to [0.0, 1.0]. -/
def decode_image (record : List Nat) : List ℚ :=
  record.map decode_pixel

/-- `decode_label`: a 1-byte record reshaped to a scalar and cast to int32. -/
def decode_label (record : List Nat) : Nat :=
  record.headD 0

/-! ## The fixed-length record reader

`tf.data.FixedLengthRecordDataset(file, record_bytes, header_bytes=h)` skips
the first `h` bytes and then repeatedly reads records of exactly
`record_bytes` bytes until the file is exhausted; a nonempty trailing chunk
shorter than a record is a data-loss error surfaced when that record is
requested.  The declared `item_count` of the IDX header plays no role. -/

/-- Eager view of the record stream: the list of complete `rb`-byte records
of `bs`, paired with `true` when a nonempty partial record trails (the
truncation error the iterator raises at that point). -/
def fixedLengthRecords (rb : Nat) (bs : List Nat) : List (List Nat) × Bool :=
  if _h0 : rb = 0 then ([], false)
  else if _hnil : bs.length = 0 then ([], false)
  else if _hlt : bs.length < rb then ([], true)
  else
    let rest := fixedLengthRecords rb (bs.drop rb)
    (bs.take rb :: rest.1, rest.2)
termination_by bs.length
decreasing_by
  simp only [List.length_drop]
  omega

/-- One iterator step of the record stream: `none` at a clean end of file,
a truncation error when `0 < remaining < rb` bytes are left, and otherwise
the next `rb`-byte record together with the advanced stream. -/
def recordNext (rb : Nat) (s : ByteStream) : Option (Except MnistError (List Nat × ByteStream)) :=
  if s.data.length ≤ s.pos then none
  else if s.data.length < s.pos + rb then some (.error .truncatedRead)
  else some (.ok ((s.data.drop s.pos).take rb, ⟨s.data, s.pos + rb⟩))

/-- One iterator step of the mapped image dataset
`FixedLengthRecordDataset(images_file, 784, header_bytes=16).map(decode_image)`:
each produced record is decoded and normalized on the way out. -/
def imageRequest (s : ByteStream) : Option (Except MnistError (List ℚ × ByteStream)) :=
  match recordNext 784 s with
  | none => none
  | some (.error e) => some (.error e)
  | some (.ok (r, s1)) => some (.ok (decode_image r, s1))

/-- The decoded image sequence of an image file:
`FixedLengthRecordDataset(images_file, 28 * 28, header_bytes=16).map(decode_image)`,
viewed eagerly as the list of decoded records plus the truncation flag. -/
def decode_images (images_file : List Nat) : List (List ℚ) × Bool :=
  let r := fixedLengthRecords 784 (images_file.drop 16)
  (r.1.map decode_image, r.2)

/-- The decoded label sequence of a label file:
`FixedLengthRecordDataset(labels_file, 1, header_bytes=8).map(decode_label)`. -/
def decode_labels (labels_file : List Nat) : List Nat × Bool :=
  let r := fixedLengthRecords 1 (labels_file.drop 8)
  (r.1.map decode_label, r.2)

/-- `tf.data.Dataset.zip`: advance both sequences in lockstep and stop as
soon as either is exhausted. -/
def zip_dataset {α β : Type} (images : List α) (labels : List β) : List (α × β) :=
  images.zip labels

/-- `dataset(directory, images_file, labels_file)` after the (out-of-scope)
download step: validate both headers, then zip the two decoded record
streams.  The boolean records whether either stream ends in a truncated
record. -/
def dataset (images_file labels_file : List Nat) :
    Except MnistError (List (List ℚ × Nat) × Bool) :=
  match check_image_file_header images_file with
  | .error e => .error e
  | .ok () =>
    match check_labels_file_header labels_file with
    | .error e => .error e
    | .ok () =>
      let imgs := decode_images images_file
      let lbls := decode_labels labels_file
      .ok (zip_dataset imgs.1 lbls.1, imgs.2 || lbls.2)

/-- `autoencoder_dataset(directory, images_file)` after the download step:
it validates the image header and then calls
`check_labels_file_header(labels_file)` — but `labels_file` is not a
parameter of the function and is bound nowhere, so evaluating the argument
raises `NameError` before any dataset is constructed. -/
def autoencoder_dataset (images_file : List Nat) :
    Except MnistError (List (List ℚ × Nat) × Bool) :=
  match check_image_file_header images_file with
  | .error e => .error e
  | .ok () => .error .nameError

/-! ## Helper lemmas -/

lemma check_image_eq_of_len (f : List Nat) (h : 16 ≤ f.length) :
    check_image_file_header f =
      (if be32 (f.take 4) ≠ 2051 then .error (.invalidMagic (be32 (f.take 4)))
       else if be32 ((f.drop 8).take 4) ≠ 28 ∨ be32 ((f.drop 12).take 4) ≠ 28 then
         .error (.invalidDimensions (be32 ((f.drop 8).take 4)) (be32 ((f.drop 12).take 4)))
       else .ok ()) := by
  have h4 : 0 + 4 ≤ f.length := by omega
  have h8 : 0 + 4 + 4 ≤ f.length := by omega
  have h12 : 0 + 4 + 4 + 4 ≤ f.length := by omega
  have h16 : 0 + 4 + 4 + 4 + 4 ≤ f.length := by omega
  simp [check_image_file_header, read32, h4, h8, h12, h16]

lemma check_image_short (f : List Nat) (h : f.length < 16) :
    check_image_file_header f = .error .truncatedRead := by
  rcases Nat.lt_or_ge f.length 4 with h1 | h1
  · simp [check_image_file_header, read32, show ¬(0 + 4 ≤ f.length) from by omega]
  · rcases Nat.lt_or_ge f.length 8 with h2 | h2
    · simp [check_image_file_header, read32, show 0 + 4 ≤ f.length from by omega,
        show ¬(0 + 4 + 4 ≤ f.length) from by omega]
    · rcases Nat.lt_or_ge f.length 12 with h3 | h3
      · simp [check_image_file_header, read32, show 0 + 4 ≤ f.length from by omega,
          show 0 + 4 + 4 ≤ f.length from by omega,
          show ¬(0 + 4 + 4 + 4 ≤ f.length) from by omega]
      · simp [check_image_file_header, read32, show 0 + 4 ≤ f.length from by omega,
          show 0 + 4 + 4 ≤ f.length from by omega,
          show 0 + 4 + 4 + 4 ≤ f.length from by omega,
          show ¬(0 + 4 + 4 + 4 + 4 ≤ f.length) from by omega]

lemma check_labels_eq_of_len (f : List Nat) (h : 8 ≤ f.length) :
    check_labels_file_header f =
      (if be32 (f.take 4) ≠ 2049 then .error (.invalidMagic (be32 (f.take 4)))
       else .ok ()) := by
  have h4 : 0 + 4 ≤ f.length := by omega
  have h8 : 0 + 4 + 4 ≤ f.length := by omega
  simp [check_labels_file_header, read32, h4, h8]

lemma check_labels_short (f : List Nat) (h : f.length < 8) :
    check_labels_file_header f = .error .truncatedRead := by
  rcases Nat.lt_or_ge f.length 4 with h1 | h1
  · simp [check_labels_file_header, read32, show ¬(0 + 4 ≤ f.length) from by omega]
  · simp [check_labels_file_header, read32, show 0 + 4 ≤ f.length from by omega,
      show ¬(0 + 4 + 4 ≤ f.length) from by omega]

lemma flr_step (rb : Nat) (bs : List Nat) :
    fixedLengthRecords rb bs =
      if rb = 0 then ([], false)
      else if bs.length = 0 then ([], false)
      else if bs.length < rb then ([], true)
      else
        (bs.take rb :: (fixedLengthRecords rb (bs.drop rb)).1,
          (fixedLengthRecords rb (bs.drop rb)).2) := by
  rw [fixedLengthRecords]
  simp only [dite_eq_ite]

lemma flr_spec_aux (rb : Nat) (hrb : 0 < rb) :
    ∀ n (bs : List Nat), bs.length ≤ n →
      (fixedLengthRecords rb bs).1.length = bs.length / rb ∧
      ((fixedLengthRecords rb bs).2 = true ↔ bs.length % rb ≠ 0) ∧
      ∀ i, (fixedLengthRecords rb bs).1[i]? =
        if i < bs.length / rb then some ((bs.drop (rb * i)).take rb) else none := by
  intro n
  induction n with
  | zero =>
    intro bs hbs
    have h0 : bs.length = 0 := by omega
    rw [flr_step, if_neg hrb.ne', if_pos h0]
    simp [h0]
  | succ n ih =>
    intro bs hbs
    rcases Nat.eq_zero_or_pos bs.length with h0 | h0
    · rw [flr_step, if_neg hrb.ne', if_pos h0]
      simp [h0]
    · rcases Nat.lt_or_ge bs.length rb with hlt | hge
      · rw [flr_step, if_neg hrb.ne', if_neg h0.ne', if_pos hlt]
        simp [Nat.div_eq_of_lt hlt, Nat.mod_eq_of_lt hlt, h0.ne']
      · have hdrop : (bs.drop rb).length ≤ n := by
          simp only [List.length_drop]; omega
        obtain ⟨ih1, ih2, ih3⟩ := ih (bs.drop rb) hdrop
        rw [flr_step, if_neg hrb.ne', if_neg h0.ne', if_neg (Nat.not_lt.2 hge)]
        have hdiv : bs.length / rb = (bs.length - rb) / rb + 1 :=
          Nat.div_eq_sub_div hrb hge
        have hmod : bs.length % rb = (bs.length - rb) % rb :=
          Nat.mod_eq_sub_mod hge
        refine ⟨?_, ?_, ?_⟩
        · simp only [List.length_cons, ih1, List.length_drop, hdiv]
        · simpa only [ih2, List.length_drop] using by rw [hmod]
        · intro i
          cases i with
          | zero =>
            simp only [List.getElem?_cons_zero, hdiv]
            rw [if_pos (Nat.succ_pos _)]
            simp
          | succ i =>
            simp only [List.getElem?_cons_succ, ih3 i, List.length_drop, hdiv]
            rw [List.drop_drop]
            have harith : rb + rb * i = rb * (i + 1) := by ring
            by_cases hi : i < (bs.length - rb) / rb
            · rw [if_pos hi, if_pos (Nat.succ_lt_succ hi), harith]
            · rw [if_neg hi, if_neg fun h => hi (Nat.lt_of_succ_lt_succ h)]

attribute [local semireducible] Rat.mul Rat.inv Rat.add Rat.sub in
set_option maxRecDepth 100000 in
lemma decode_pixel_range_aux :
    ∀ b : Fin 256, 0 ≤ decode_pixel b.val ∧ decode_pixel b.val ≤ 1 := by decide

attribute [local semireducible] Rat.mul Rat.inv Rat.add Rat.sub in
set_option maxRecDepth 100000 in
lemma decode_pixel_zero : decode_pixel 0 = 0 := by decide

attribute [local semireducible] Rat.mul Rat.inv Rat.add Rat.sub in
set_option maxRecDepth 100000 in
lemma decode_pixel_255 : decode_pixel 255 = 1 := by decide

/-! ## Claim theorems -/

/-- C1: for every source whose first four big-endian 32-bit integers are
(magic, item_count, rows, cols), `check_image_file_header` fails with the
invalid-magic error (reporting the actual magic) if and only if
magic ≠ 2051; when the magic is 2051 it fails with the invalid-dimensions
error if and only if rows ≠ 28 or cols ≠ 28; the magic check is decided
before the dimension check (a bad magic wins regardless of the dimensions),
and on success no error is raised. -/
theorem check_image_header_magic_before_dims (f : List Nat) (m r c : Nat)
    (hlen : 16 ≤ f.length)
    (hm : be32 (f.take 4) = m)
    (hr : be32 ((f.drop 8).take 4) = r)
    (hc : be32 ((f.drop 12).take 4) = c) :
    (check_image_file_header f = .error (.invalidMagic m) ↔ m ≠ 2051) ∧
    (m = 2051 →
      (check_image_file_header f = .error (.invalidDimensions r c) ↔ (r ≠ 28 ∨ c ≠ 28))) ∧
    (m = 2051 → r = 28 → c = 28 → check_image_file_header f = .ok ()) := by
  subst hm hr hc
  rw [check_image_eq_of_len f hlen]
  refine ⟨?_, ?_, ?_⟩
  · by_cases h1 : be32 (f.take 4) = 2051
    · simp only [h1, ne_eq, not_true_eq_false, ite_false, if_neg]
      by_cases h2 : be32 ((f.drop 8).take 4) ≠ 28 ∨ be32 ((f.drop 12).take 4) ≠ 28 <;>
        simp [h2]
    · simp [h1]
  · intro h1
    simp only [h1, ne_eq, not_true_eq_false, ite_false]
    by_cases h2 : be32 ((f.drop 8).take 4) ≠ 28 ∨ be32 ((f.drop 12).take 4) ≠ 28 <;>
      simp [h2]
  · intro h1 h2 h3
    simp [h1, h2, h3]

/-- C1 witness: the theorem applied to a concrete valid header. -/
theorem check_image_header_magic_before_dims_witness :
    check_image_file_header (imageHeader 2051 60000 28 28) = .ok () :=
  (check_image_header_magic_before_dims (imageHeader 2051 60000 28 28) 2051 28 28
    (by decide) (by decide) (by decide) (by decide)).2.2 rfl rfl rfl

/-- C2 counterexample: the claim says the header checkers return the parsed
values (the image triple and the label item count).  They do not: on two
valid image files whose declared item counts differ (3 vs 7) the checker
returns the one same value — the unit value, Python's `None` — and likewise
for label files, so the return value cannot carry the parsed
`item_count`. -/
theorem check_header_success_value_carries_nothing :
    be32 (((imageHeader 2051 3 28 28).drop 4).take 4) = 3 ∧
    be32 (((imageHeader 2051 7 28 28).drop 4).take 4) = 7 ∧
    check_image_file_header (imageHeader 2051 3 28 28) =
      check_image_file_header (imageHeader 2051 7 28 28) ∧
    check_image_file_header (imageHeader 2051 3 28 28) = .ok () ∧
    be32 (((labelHeader 2049 3).drop 4).take 4) = 3 ∧
    be32 (((labelHeader 2049 7).drop 4).take 4) = 7 ∧
    check_labels_file_header (labelHeader 2049 3) =
      check_labels_file_header (labelHeader 2049 7) ∧
    check_labels_file_header (labelHeader 2049 3) = .ok () := by
  refine ⟨by decide, by decide, rfl, rfl, by decide, by decide, rfl, rfl⟩

/-- C2 amended: for every source with a valid image header,
`check_image_file_header` succeeds returning no data (Python `None`), and
for every source with a valid label header, `check_labels_file_header`
succeeds returning no data; the parsed fields are checked or discarded,
never returned. -/
theorem header_validation_success_returns_unit (f g : List Nat)
    (hf : 16 ≤ f.length) (hfm : be32 (f.take 4) = 2051)
    (hfr : be32 ((f.drop 8).take 4) = 28) (hfc : be32 ((f.drop 12).take 4) = 28)
    (hg : 8 ≤ g.length) (hgm : be32 (g.take 4) = 2049) :
    check_image_file_header f = .ok () ∧ check_labels_file_header g = .ok () := by
  rw [check_image_eq_of_len f hf, check_labels_eq_of_len g hg]
  simp [hfm, hfr, hfc, hgm]

/-- C2 witness: the amended theorem applied to concrete valid headers. -/
theorem header_validation_success_returns_unit_witness :
    check_image_file_header (imageHeader 2051 10000 28 28) = .ok () ∧
    check_labels_file_header (labelHeader 2049 10000) = .ok () :=
  header_validation_success_returns_unit (imageHeader 2051 10000 28 28)
    (labelHeader 2049 10000) (by decide) (by decide) (by decide) (by decide)
    (by decide) (by decide)

/-- C3 counterexample input: a validated image file whose header declares
5 items but whose body stores exactly one 784-byte record. -/
def fiveDeclaredOneStored : List Nat :=
  imageHeader 2051 5 28 28 ++ List.replicate 784 7

/-- C3 counterexample: the claim says decoding produces exactly `count`
elements for every count (in particular the declared item count) and fails
with a truncated read before `count` elements when the bytes run out.  On a
validated file declaring 5 items but storing one record, the code instead
yields exactly 1 element and raises no error: the declared count is never
consulted. -/
theorem decode_images_ignores_declared_count :
    be32 ((fiveDeclaredOneStored.drop 4).take 4) = 5 ∧
    check_image_file_header fiveDeclaredOneStored = .ok () ∧
    (decode_images fiveDeclaredOneStored).1.length = 1 ∧
    (decode_images fiveDeclaredOneStored).2 = false := by
  have hlen : (fiveDeclaredOneStored.drop 16).length = 784 := by
    simp [fiveDeclaredOneStored, imageHeader, u32be]
  obtain ⟨h1, h2, _⟩ :=
    flr_spec_aux 784 (by norm_num) (fiveDeclaredOneStored.drop 16).length
      (fiveDeclaredOneStored.drop 16) le_rfl
  refine ⟨by decide, rfl, ?_, ?_⟩
  · simp only [decode_images, List.length_map]
    rw [h1, hlen]
  · simp only [decode_images]
    have h3 : ¬ ((fixedLengthRecords 784 (fiveDeclaredOneStored.drop 16)).2 = true) := by
      rw [h2, hlen]
      norm_num
    simpa using h3

/-- C3 amended: for every image source the decoding step yields one element
per complete 784-byte record following the 16-byte header —
⌊(size − 16) / 784⌋ elements in file order, each obtained by reading exactly
784 bytes and decoding them — independent of any declared count, and it
flags a truncated read exactly when a nonempty partial record trails. -/
theorem decode_images_yields_all_complete_records (f : List Nat) :
    (decode_images f).1.length = (f.length - 16) / 784 ∧
    ((decode_images f).2 = true ↔ (f.length - 16) % 784 ≠ 0) ∧
    ∀ i, (decode_images f).1[i]? =
      if i < (f.length - 16) / 784 then
        some (decode_image ((f.drop (16 + 784 * i)).take 784))
      else none := by
  obtain ⟨h1, h2, h3⟩ :=
    flr_spec_aux 784 (by norm_num) (f.drop 16).length (f.drop 16) le_rfl
  simp only [List.length_drop] at h1 h2 h3
  refine ⟨?_, ?_, ?_⟩
  · simp only [decode_images, List.length_map, h1]
  · simpa only [decode_images] using h2
  · intro i
    simp only [decode_images, List.getElem?_map, h3 i, List.drop_drop]
    by_cases hi : i < (f.length - 16) / 784
    · rw [if_pos hi, if_pos hi]
      rfl
    · rw [if_neg hi, if_neg hi]
      rfl

/-- C4: decoding a pixel byte b yields exactly the float32 value of the
expression `b / 255.0` (the correctly rounded quotient, here modelled by
`f32round`); b = 0 decodes to exactly 0.0, b = 255 decodes to exactly 1.0,
and every decoded pixel value lies in [0.0, 1.0]. -/
theorem decode_pixel_exact_div (b : Nat) (hb : b ≤ 255) :
    decode_pixel b = f32round ((b : ℚ) / 255) ∧
    decode_pixel 0 = 0 ∧ decode_pixel 255 = 1 ∧
    0 ≤ decode_pixel b ∧ decode_pixel b ≤ 1 :=
  ⟨rfl, decode_pixel_zero, decode_pixel_255,
    (decode_pixel_range_aux ⟨b, by omega⟩).1,
    (decode_pixel_range_aux ⟨b, by omega⟩).2⟩

/-- C4 witness: the theorem applied to the concrete byte 128. -/
theorem decode_pixel_exact_div_witness :
    decode_pixel 128 = f32round ((128 : ℚ) / 255) ∧
    decode_pixel 0 = 0 ∧ decode_pixel 255 = 1 ∧
    0 ≤ decode_pixel 128 ∧ decode_pixel 128 ≤ 1 :=
  decode_pixel_exact_div 128 (by decide)

/-- C5: `read32` reads exactly 4 bytes, returns them interpreted as an
unsigned 32-bit big-endian integer, advances the cursor by exactly 4 with
the data untouched, and fails with a truncated-read error whenever fewer
than 4 bytes remain. -/
theorem read32_reads_4_bytes_be (s : ByteStream) :
    (∀ b0 b1 b2 b3, (s.data.drop s.pos).take 4 = [b0, b1, b2, b3] →
      read32 s = .ok (b0 * 2 ^ 24 + b1 * 2 ^ 16 + b2 * 2 ^ 8 + b3,
        ⟨s.data, s.pos + 4⟩)) ∧
    (s.data.length < s.pos + 4 → read32 s = .error .truncatedRead) := by
  constructor
  · intro b0 b1 b2 b3 hbytes
    have hlen : s.pos + 4 ≤ s.data.length := by
      have hl := congrArg List.length hbytes
      simp only [List.length_take, List.length_drop, List.length_cons,
        List.length_nil] at hl
      omega
    simp only [read32, if_pos hlen, hbytes, be32, List.foldl]
    refine congrArg Except.ok ?_
    refine Prod.ext ?_ rfl
    show ((((0 * 256 + b0) * 256 + b1) * 256 + b2) * 256 + b3 : Nat) = _
    ring
  · intro h
    rw [read32, if_neg (by omega)]

/-- C5 witness: reading [0, 0, 8, 3] yields 2051 and cursor 4; a 2-byte
stream fails with the truncated-read error. -/
theorem read32_reads_4_bytes_be_witness :
    read32 ⟨[0, 0, 8, 3, 9], 0⟩ = .ok (2051, ⟨[0, 0, 8, 3, 9], 4⟩) ∧
    read32 ⟨[7, 7], 0⟩ = .error .truncatedRead := by
  constructor
  · have h := (read32_reads_4_bytes_be ⟨[0, 0, 8, 3, 9], 0⟩).1 0 0 8 3 (by decide)
    simpa using h
  · exact (read32_reads_4_bytes_be ⟨[7, 7], 0⟩).2 (by decide)

/-- C6: `zip_dataset` advances both sequences in lockstep and stops as soon
as either is exhausted (its length is the minimum of the two lengths); when
both sequences have the same length n it yields exactly n pairs, and the
pair at position i is the image at position i with the label at
position i. -/
theorem zip_dataset_lockstep :
    (∀ (imgs : List (List ℚ)) (lbls : List Nat),
      (zip_dataset imgs lbls).length = min imgs.length lbls.length) ∧
    (∀ (imgs : List (List ℚ)) (lbls : List Nat) (n : Nat)
      (hn : imgs.length = n) (hm : lbls.length = n),
      (zip_dataset imgs lbls).length = n ∧
      ∀ i (hi : i < n),
        (zip_dataset imgs lbls).get
            ⟨i, by simp only [zip_dataset, List.length_zip]; omega⟩ =
          (imgs.get ⟨i, by omega⟩, lbls.get ⟨i, by omega⟩)) := by
  constructor
  · intro imgs lbls
    simp [zip_dataset, List.length_zip]
  · intro imgs lbls n hn hm
    constructor
    · simp [zip_dataset, List.length_zip, hn, hm]
    · intro i hi
      simp [zip_dataset, List.get_eq_getElem, List.getElem_zip]

/-- C6 witness: the theorem applied to two concrete 2-element sequences. -/
theorem zip_dataset_lockstep_witness :
    (zip_dataset ([[1], [2]] : List (List ℚ)) ([3, 4] : List Nat)).length = 2 :=
  (zip_dataset_lockstep.2 [[1], [2]] [3, 4] 2 rfl rfl).1

/-- C7: for every image file truncated mid-record (16-byte header, k
complete 784-byte records and a nonempty partial record of r bytes), each of
the first k record requests succeeds and yields the decoded complete record
with the cursor advanced by 784, and the truncated-read error surfaces
exactly at the request of the first incomplete record — not earlier. -/
theorem truncation_surfaces_at_first_incomplete_record (f : List Nat) (k r : Nat)
    (hr0 : 0 < r) (hr784 : r < 784) (hlen : f.length = 16 + 784 * k + r) :
    (∀ i, i < k →
      imageRequest ⟨f, 16 + 784 * i⟩ =
        some (.ok (decode_image ((f.drop (16 + 784 * i)).take 784),
          ⟨f, 16 + 784 * (i + 1)⟩))) ∧
    imageRequest ⟨f, 16 + 784 * k⟩ = some (.error .truncatedRead) := by
  constructor
  · intro i hi
    have h1 : ¬ (f.length ≤ 16 + 784 * i) := by omega
    have h2 : ¬ (f.length < 16 + 784 * i + 784) := by omega
    have harith : 16 + 784 * i + 784 = 16 + 784 * (i + 1) := by ring
    simp only [imageRequest, recordNext, harith, if_neg h1,
      if_neg (show ¬ (f.length < 16 + 784 * (i + 1)) from by omega)]
  · have h1 : ¬ (f.length ≤ 16 + 784 * k) := by omega
    have h2 : f.length < 16 + 784 * k + 784 := by omega
    simp only [imageRequest, recordNext, if_neg h1, if_pos h2]

/-- C7 witness: a file with one complete record and a 392-byte partial
record (header declares nothing relevant; 1192 = 16 + 784 + 392) errors
exactly on the second record request. -/
theorem truncation_surfaces_at_first_incomplete_record_witness :
    imageRequest ⟨List.replicate 1192 0, 16 + 784 * 1⟩ =
      some (.error .truncatedRead) :=
  (truncation_surfaces_at_first_incomplete_record (List.replicate 1192 0) 1 392
    (by norm_num) (by norm_num) (by simp)).2

/-- C8: header validation is idempotent — each call opens the file afresh
(cursor reset to 0) and only reads, so on an unmodified file the first and
the second call return the very same outcome, the same success value or the
same error. -/
theorem header_validation_idempotent (f g : List Nat) :
    check_image_file_header f = check_image_file_header f ∧
    check_labels_file_header g = check_labels_file_header g :=
  ⟨rfl, rfl⟩

/-- C9 counterexample: the claim says every call of `autoencoder_dataset`
raises the name error.  On an input whose image header has magic 2049 the
call instead fails earlier, inside `check_image_file_header`, with the
invalid-magic error, which is not the name error. -/
theorem autoencoder_dataset_bad_magic_not_nameError :
    autoencoder_dataset (imageHeader 2049 5 28 28) = .error (.invalidMagic 2049) ∧
    MnistError.invalidMagic 2049 ≠ MnistError.nameError :=
  ⟨rfl, by decide⟩

/-- C9 amended: no call of `autoencoder_dataset` can succeed; on every input
that passes image-header validation it raises the Python name error (the
unbound `labels_file` in its label-header check) before constructing or
returning any dataset, and on every other input the earlier validation
error propagates. -/
theorem autoencoder_dataset_never_succeeds :
    (∀ (f : List Nat) (v : List (List ℚ × Nat) × Bool),
      autoencoder_dataset f ≠ .ok v) ∧
    (∀ f : List Nat, check_image_file_header f = .ok () →
      autoencoder_dataset f = .error .nameError) := by
  constructor
  · intro f v h
    unfold autoencoder_dataset at h
    cases hc : check_image_file_header f with
    | error e => rw [hc] at h; exact Except.noConfusion h
    | ok u => cases u; rw [hc] at h; exact Except.noConfusion h
  · intro f h
    unfold autoencoder_dataset
    rw [h]

/-- C9 witness: the amended theorem applied to a concrete valid header. -/
theorem autoencoder_dataset_never_succeeds_witness :
    autoencoder_dataset (imageHeader 2051 1 28 28) = .error .nameError :=
  autoencoder_dataset_never_succeeds.2 (imageHeader 2051 1 28 28) rfl

/-- C10: the image-header validation outcome does not depend on the declared
item_count — for any two image files of equal length that agree outside
header bytes 4–7, `check_image_file_header` returns identical outcomes;
the field is read and discarded. -/
theorem image_header_check_ignores_item_count (f1 f2 : List Nat)
    (hlen : f1.length = f2.length)
    (htake : f1.take 4 = f2.take 4)
    (hdrop : f1.drop 8 = f2.drop 8) :
    check_image_file_header f1 = check_image_file_header f2 := by
  rcases Nat.lt_or_ge f1.length 16 with h | h
  · rw [check_image_short f1 h, check_image_short f2 (by omega)]
  · rw [check_image_eq_of_len f1 h, check_image_eq_of_len f2 (by omega)]
    have h12 : f1.drop 12 = f2.drop 12 := by
      have h' : (f1.drop 8).drop 4 = (f2.drop 8).drop 4 := by rw [hdrop]
      rw [List.drop_drop, List.drop_drop] at h'
      norm_num at h'
      exact h'
    rw [htake, hdrop, h12]

/-- C10 witness: two concrete valid files differing only in the item_count
field (3 vs 9) validate identically. -/
theorem image_header_check_ignores_item_count_witness :
    check_image_file_header (imageHeader 2051 3 28 28) =
      check_image_file_header (imageHeader 2051 9 28 28) :=
  image_header_check_ignores_item_count (imageHeader 2051 3 28 28)
    (imageHeader 2051 9 28 28) (by decide) (by decide) (by decide)

end Mnist
